import Mathlib

/-!
Shallow embedding of the game-backlog tracker (src/src/App.tsx): the
catalog data model, the Catalog Store mutations (addGame, updateGame,
deleteGame), the Query Engine (filteredGames: filter + sort, and
pickRandomGame), the persistence adapter (loadGames), the submit path of
the add form (handleSubmit), and the metadata-client search error
taxonomy (searchGames).

Conventions of the embedding:
- JavaScript strings are Lean String; host primitives toLowerCase, trim,
  includes and lexicographic comparison are modelled by executable
  char-list functions (lowerStr, trimStr, strIncludes, strLt).
- The wall clock is passed explicitly: Date.now() as a Nat argument,
  new Date().toISOString().split(".")[0] date strings as String
  arguments.
- Math.random()'s draw is passed as a Nat index; Math.floor(r * n) for
  uniform r on [0,1) is a uniform index in [0, n), modelled as i % n.
- A TypeScript Partial record is a record of Option fields; a field of
  the partial explicitly set to undefined is modelled as some none
  (object spread overwrites with undefined when the key is present).
- localStorage.getItem is an Option String argument; JSON.parse of the
  stored blob is an explicit parse argument (none models a thrown
  SyntaxError).
-/

/-- Lexicographic order on char lists, modelling JavaScript string
comparison restricted to the data this program compares (ISO date
strings, titles). -/
def listLex : List Char → List Char → Bool
  | [], [] => false
  | [], _ :: _ => true
  | _ :: _, [] => false
  | a :: as, b :: bs => if a = b then listLex as bs else decide (a < b)

/-- String less-than via listLex. -/
def strLt (a b : String) : Bool := listLex a.data b.data

/-- Sign of a string comparison: models the sign of s.localeCompare(t)
(zero exactly on equal strings). -/
def strCmp (a b : String) : Int := if a = b then 0 else if strLt a b then -1 else 1

/-- Per-character lower-casing, modelling String.prototype.toLowerCase. -/
def lowerStr (s : String) : String := String.mk (s.data.map Char.toLower)

/-- Whitespace stripping at both ends of a char list. -/
def trimChars (l : List Char) : List Char :=
  ((l.dropWhile Char.isWhitespace).reverse.dropWhile Char.isWhitespace).reverse

/-- Models String.prototype.trim. -/
def trimStr (s : String) : String := String.mk (trimChars s.data)

/-- Does the char list hay contain needle as a contiguous sublist? -/
def containsSub (needle : List Char) : List Char → Bool
  | [] => needle.isEmpty
  | b :: bs => needle.isPrefixOf (b :: bs) || containsSub needle bs

/-- Models s.includes(sub) for JavaScript strings. -/
def strIncludes (s sub : String) : Bool := containsSub sub.data s.data

/-- The Game record (interface Game, App.tsx lines 5-20). The status
union type is kept as the raw string it is stored as. -/
structure Game where
  id : String
  title : String
  platforms : List String
  genres : List String
  coverUrl : Option String := none
  releaseDate : Option String := none
  description : Option String := none
  status : String
  rating : Option Int := none
  notes : Option String := none
  dateAdded : String
  dateCompleted : Option String := none
  rawgId : Option Int := none
  metacriticScore : Option Int := none
deriving DecidableEq, Repr

/-- A draft game: Omit of Game without id and dateAdded, the argument
shape of addGame (App.tsx line 216). -/
structure GameDraft where
  title : String
  platforms : List String
  genres : List String
  coverUrl : Option String := none
  releaseDate : Option String := none
  description : Option String := none
  status : String
  rating : Option Int := none
  notes : Option String := none
  dateCompleted : Option String := none
  rawgId : Option Int := none
  metacriticScore : Option Int := none
deriving DecidableEq, Repr

/-- A TypeScript Partial of Game: each field is absent (none) or present
with a value; for fields of Game that are themselves optional the
present value is an Option, so that an explicit undefined assignment
(some none) is distinguished from an absent key (none). -/
structure GameUpdate where
  id : Option String := none
  title : Option String := none
  platforms : Option (List String) := none
  genres : Option (List String) := none
  coverUrl : Option (Option String) := none
  releaseDate : Option (Option String) := none
  description : Option (Option String) := none
  status : Option String := none
  rating : Option (Option Int) := none
  notes : Option (Option String) := none
  dateAdded : Option String := none
  dateCompleted : Option (Option String) := none
  rawgId : Option (Option Int) := none
  metacriticScore : Option (Option Int) := none
deriving DecidableEq, Repr

/-- Object spread { ...game, ...updates }: a key present in updates
overwrites the field, an absent key keeps the old field. -/
def applyUpdate (u : GameUpdate) (g : Game) : Game :=
  { id := u.id.getD g.id
    title := u.title.getD g.title
    platforms := u.platforms.getD g.platforms
    genres := u.genres.getD g.genres
    coverUrl := u.coverUrl.getD g.coverUrl
    releaseDate := u.releaseDate.getD g.releaseDate
    description := u.description.getD g.description
    status := u.status.getD g.status
    rating := u.rating.getD g.rating
    notes := u.notes.getD g.notes
    dateAdded := u.dateAdded.getD g.dateAdded
    dateCompleted := u.dateCompleted.getD g.dateCompleted
    rawgId := u.rawgId.getD g.rawgId
    metacriticScore := u.metacriticScore.getD g.metacriticScore }

/-- Builds the record appended by addGame (App.tsx lines 216-224):
spread of the draft plus id := Date.now().toString() and dateAdded :=
the current date string. -/
def gameOfDraft (d : GameDraft) (nowMs : Nat) (today : String) : Game :=
  { id := toString nowMs
    title := d.title
    platforms := d.platforms
    genres := d.genres
    coverUrl := d.coverUrl
    releaseDate := d.releaseDate
    description := d.description
    status := d.status
    rating := d.rating
    notes := d.notes
    dateAdded := today
    dateCompleted := d.dateCompleted
    rawgId := d.rawgId
    metacriticScore := d.metacriticScore }

/-- addGame (App.tsx lines 216-224): append the new record to the
collection. -/
def addGame (d : GameDraft) (nowMs : Nat) (today : String) (games : List Game) : List Game :=
  games ++ [gameOfDraft d nowMs today]

/-- updateGame (App.tsx lines 227-231): merge the updates into every
record whose id matches. -/
def updateGame (gameId : String) (u : GameUpdate) (games : List Game) : List Game :=
  games.map fun g => if g.id = gameId then applyUpdate u g else g

/-- deleteGame (App.tsx lines 234-237): drop records whose id matches. -/
def deleteGame (gameId : String) (games : List Game) : List Game :=
  games.filter fun g => g.id ≠ gameId

/-- Runs a sequence of add operations; each element carries the draft,
the Date.now() value and the date string observed by that add. -/
def runAdds (games : List Game) : List (GameDraft × Nat × String) → List Game
  | [] => games
  | (d, n, t) :: rest => runAdds (addGame d n t games) rest

/-- Every add in the sequence observes a Date.now() value whose string
form is not already an id of the collection at that point. -/
def freshSeq (games : List Game) : List (GameDraft × Nat × String) → Bool
  | [] => true
  | (d, n, t) :: rest =>
    !((games.map Game.id).contains (toString n)) && freshSeq (addGame d n t games) rest

/-- The filter inputs of the query: search text and the three
multi-select filters (App.tsx lines 149-152). -/
structure FilterArgs where
  searchTerm : String
  selectedPlatforms : List String
  selectedGenres : List String
  selectedStatus : List String
deriving DecidableEq, Repr

/-- matchesSearch (App.tsx lines 175-176): case-insensitive substring
match of the search term against the title or any genre entry. -/
def matchesSearch (term : String) (g : Game) : Bool :=
  strIncludes (lowerStr g.title) (lowerStr term) ||
    g.genres.any fun x => strIncludes (lowerStr x) (lowerStr term)

/-- matchesPlatforms (App.tsx lines 177-178). -/
def matchesPlatforms (sel : List String) (g : Game) : Bool :=
  sel.isEmpty || sel.any fun p => g.platforms.contains p

/-- matchesGenres (App.tsx lines 179-180). -/
def matchesGenres (sel : List String) (g : Game) : Bool :=
  sel.isEmpty || sel.any fun x => g.genres.contains x

/-- matchesStatus (App.tsx lines 181-182). -/
def matchesStatus (sel : List String) (g : Game) : Bool :=
  sel.isEmpty || sel.contains g.status

/-- The conjunction of the four filter predicates (App.tsx line 183). -/
def gameMatches (args : FilterArgs) (g : Game) : Bool :=
  matchesSearch args.searchTerm g && matchesPlatforms args.selectedPlatforms g &&
    matchesGenres args.selectedGenres g && matchesStatus args.selectedStatus g

/-- The filtering stage of filteredGames (App.tsx lines 174-184). -/
def applyFilters (args : FilterArgs) (games : List Game) : List Game :=
  games.filter (gameMatches args)

/-- Comparator-driven insertion into an already placed run: the new
element settles in front of the first element it compares strictly
negative against, and after every element it does not. This is the
placement rule of the engine's binary insertion sort (the pivot moves
left past exactly the elements e with comparator(pivot, e) < 0), which
yields the ECMAScript-required stable order for consistent comparators
and is the engine-defined order for comparators that never return 0. -/
def insertCmp (cmp : Game → Game → Int) (a : Game) : List Game → List Game
  | [] => [a]
  | b :: l => if cmp a b < 0 then a :: b :: l else b :: insertCmp cmp a l

/-- Model of arr.slice().sort(cmp): the elements are taken left to right
and each is inserted into the run built so far by insertCmp. -/
def sortCmp (cmp : Game → Game → Int) (l : List Game) : List Game :=
  l.foldl (fun acc x => insertCmp cmp x acc) []

/-- The sorting stage of filteredGames (App.tsx lines 186-212): one
comparator per sort option string; any other string leaves the list as
produced by the filter. -/
def sortGames (sortOption : String) (l : List Game) : List Game :=
  match sortOption with
  | "title-az" => sortCmp (fun a b => strCmp a.title b.title) l
  | "title-za" => sortCmp (fun a b => strCmp b.title a.title) l
  | "date-oldest" => sortCmp (fun a b => if strLt b.dateAdded a.dateAdded then 1 else -1) l
  | "date-newest" => sortCmp (fun a b => if strLt a.dateAdded b.dateAdded then 1 else -1) l
  | "status" => sortCmp (fun a b => strCmp a.status b.status) l
  | "rating-high" => sortCmp (fun a b => b.rating.getD 0 - a.rating.getD 0) l
  | "rating-low" => sortCmp (fun a b => a.rating.getD 0 - b.rating.getD 0) l
  | _ => l

/-- filteredGames (App.tsx lines 173-213): filter, then sort. -/
def filteredGames (args : FilterArgs) (sortOption : String) (games : List Game) : List Game :=
  sortGames sortOption (applyFilters args games)

/-- The eligibility test of pickRandomGame (App.tsx lines 241-243). -/
def eligibleForRandom (g : Game) : Bool :=
  g.status == "want-to-play" || g.status == "playing"

/-- pickRandomGame (App.tsx lines 240-248): restrict the already
filtered view to eligible games and pick the element at the random
index; i % n models Math.floor(Math.random() * n), the draw being
uniform on [0, n) when i is. Returns none when no game is eligible (the
original performs no selection in that case). -/
def pickRandomGame (view : List Game) (i : Nat) : Option Game :=
  let el := view.filter eligibleForRandom
  if h : 0 < el.length then some (el.get ⟨i % el.length, Nat.mod_lt i h⟩) else none

/-- loadGames (App.tsx lines 63-70): blob is localStorage.getItem
(none when the key is absent), parse models JSON.parse on the blob
(none when JSON.parse throws); a falsy blob (absent or empty string)
and a parse failure both yield the empty collection. -/
def loadGames (parse : String → Option (List Game)) (blob : Option String) : List Game :=
  match blob with
  | none => []
  | some s => if s = "" then [] else (parse s).getD []

/-- Form data of the add modal (App.tsx lines 609-621); only the fields
the submit path reads are carried, all present with their defaults. -/
structure FormData where
  title : String
  platforms : List String := []
  genres : List String := []
  status : String := "want-to-play"
  description : Option String := none
  releaseDate : Option String := none
  rating : Option Int := none
  notes : Option String := none
  coverUrl : Option String := none
  rawgId : Option Int := none
  metacriticScore : Option Int := none
deriving DecidableEq, Repr

/-- The draft passed to onAdd by the add modal. -/
def draftOfForm (fd : FormData) : GameDraft :=
  { title := fd.title
    platforms := fd.platforms
    genres := fd.genres
    status := fd.status
    description := fd.description
    releaseDate := fd.releaseDate
    rating := fd.rating
    notes := fd.notes
    coverUrl := fd.coverUrl
    rawgId := fd.rawgId
    metacriticScore := fd.metacriticScore }

/-- handleSubmit of the add modal (App.tsx lines 713-718) composed with
addGame: the draft reaches the store only when the trimmed title is
non-empty; a blank title blocks the submission and the collection is
left untouched (the ValidationError of the specification's taxonomy). -/
def submitGame (fd : FormData) (nowMs : Nat) (today : String) (games : List Game) : List Game :=
  if trimStr fd.title ≠ "" then addGame (draftOfForm fd) nowMs today games else games

/-- The status-change handler of the detail modal (handleStatusChange,
App.tsx lines 1137-1145): build the partial update from the new status
and, depending on the transition, a dateCompleted stamp or an explicit
undefined assignment clearing it. -/
def handleStatusChangeUpdates (g : Game) (newStatus : String) (today : String) : GameUpdate :=
  if newStatus = "completed" ∧ g.status ≠ "completed" then
    { status := some newStatus, dateCompleted := some (some today) }
  else if newStatus ≠ "completed" then
    { status := some newStatus, dateCompleted := some none }
  else
    { status := some newStatus }

/-- The status-change path of the game card (App.tsx line 390):
onStatusChange passes the bare status to updateGame, with no
dateCompleted handling. -/
def cardStatusUpdate (newStatus : String) : GameUpdate :=
  { status := some newStatus }

/-- The external record shape returned by the metadata search (interface
RAWGGame, App.tsx lines 22-39), with the nested platform/genre wrappers
flattened to the names the code extracts. -/
structure RAWGGame where
  id : Int
  name : String
  backgroundImage : Option String := none
  released : Option String := none
  descriptionRaw : Option String := none
  platformNames : List String := []
  genreNames : List String := []
  metacritic : Option Int := none
deriving DecidableEq, Repr

/-- The decoded inner payload of the relay response: the detail field of
the upstream error convention and the results array. -/
structure ApiData where
  detail : Option String := none
  results : Option (List RAWGGame) := none
deriving DecidableEq, Repr

/-- Outcome of searchGames: the result list, or one of the
distinguishable failures the code throws. -/
inductive SearchOutcome where
  | results (l : List RAWGGame)
  | authError
  | networkError (status : Nat)
  | decodeError
deriving DecidableEq, Repr

/-- response.ok of fetch: HTTP status in the 2xx range. -/
def responseOk (status : Nat) : Bool := 200 ≤ status && status < 300

/-- Whether the decoded payload carries the upstream invalid-credential
marker (data.detail && data.detail.includes("Invalid API key")). -/
def hasAuthFailureDetail (data : ApiData) : Bool :=
  match data.detail with
  | some d => strIncludes d "Invalid API key"
  | none => false

/-- searchGames (App.tsx lines 80-105): blank query or blank key short-
circuit to an empty result with no network call; a non-2xx transport
status throws the network error; a relay payload that fails the second
JSON.parse (decoded = none) propagates as a decode failure; the
invalid-credential marker throws the auth error; otherwise the results
array (or empty when absent) is returned. -/
def searchGames (query apiKey : String) (status : Nat) (decoded : Option ApiData) :
    SearchOutcome :=
  if trimStr query = "" ∨ trimStr apiKey = "" then .results []
  else if !responseOk status then .networkError status
  else
    match decoded with
    | none => .decodeError
    | some data =>
      if hasAuthFailureDetail data then .authError
      else .results (data.results.getD [])

/-- Spec-side text-match predicate, written from the specification's
words for the refinement claim C3: empty search text, or a
case-insensitive substring match against the title or some genre entry. -/
def SpecTextMatch (term : String) (g : Game) : Prop :=
  term = "" ∨ strIncludes (lowerStr g.title) (lowerStr term) = true ∨
    ∃ x ∈ g.genres, strIncludes (lowerStr x) (lowerStr term) = true

/-- Spec-side platform predicate for C3: empty filter set, or some
platform of the game lies in the filter set. -/
def SpecPlatformMatch (sel : List String) (g : Game) : Prop :=
  sel = [] ∨ ∃ p ∈ g.platforms, p ∈ sel

/-- Spec-side genre predicate for C3. -/
def SpecGenreMatch (sel : List String) (g : Game) : Prop :=
  sel = [] ∨ ∃ x ∈ g.genres, x ∈ sel

/-- Spec-side status predicate for C3: empty filter set, or the game's
status lies in the filter set. -/
def SpecStatusMatch (sel : List String) (g : Game) : Prop :=
  sel = [] ∨ g.status ∈ sel

/-- Same sort key under a sort mode: the key column of the
specification's sort table (title, dateAdded, status code, rating with
absent read as 0); under an unrecognized mode no reordering happens, so
every pair counts as tied. -/
def sameKey (sortOption : String) (a b : Game) : Bool :=
  match sortOption with
  | "title-az" => a.title == b.title
  | "title-za" => a.title == b.title
  | "date-oldest" => a.dateAdded == b.dateAdded
  | "date-newest" => a.dateAdded == b.dateAdded
  | "status" => a.status == b.status
  | "rating-high" => a.rating.getD 0 == b.rating.getD 0
  | "rating-low" => a.rating.getD 0 == b.rating.getD 0
  | _ => true

/-- Sample record used by concrete instantiations. -/
def gPlaying : Game :=
  { id := "1", title := "Hades", platforms := ["PC"], genres := ["Action"],
    status := "playing", dateAdded := "2024-01-01" }

/-- Sample completed record carrying a dateCompleted stamp. -/
def gCompletedOld : Game :=
  { id := "1", title := "Hades", platforms := [], genres := [],
    status := "completed", dateAdded := "2024-01-01",
    dateCompleted := some "2024-02-02" }

/-- Sample want-to-play record. -/
def gWant : Game :=
  { id := "2", title := "Celeste", platforms := ["PC"], genres := ["Platformer"],
    status := "want-to-play", dateAdded := "2024-02-01" }

/-- Sample dropped record. -/
def gDropped : Game :=
  { id := "3", title := "Q", platforms := [], genres := [],
    status := "dropped", dateAdded := "2024-03-01" }

/-- Two records tied on dateAdded, used for the sort-stability analysis. -/
def gTieA : Game :=
  { id := "10", title := "Alpha", platforms := [], genres := [],
    status := "playing", dateAdded := "2024-05-05" }

/-- Second record of the dateAdded tie. -/
def gTieB : Game :=
  { id := "11", title := "Beta", platforms := [], genres := [],
    status := "playing", dateAdded := "2024-05-05" }

/-- Sample draft. -/
def dSample : GameDraft :=
  { title := "A", platforms := [], genres := [], status := "want-to-play" }

/-- Filter arguments that let everything through. -/
def emptyFilters : FilterArgs :=
  { searchTerm := "", selectedPlatforms := [], selectedGenres := [], selectedStatus := [] }

/-- Concrete parse function standing in for JSON.parse in witnesses:
fails on everything but one known blob. -/
def parseW : String → Option (List Game) :=
  fun s => if s = "GOOD" then some [gPlaying] else none

/-- Two add operations with distinct Date.now() values. -/
def opsW : List (GameDraft × Nat × String) :=
  [(dSample, 1, "2024-01-01"), (dSample, 2, "2024-01-02")]

/-- Form data whose title is whitespace only. -/
def fdBlank : FormData := { title := "   " }

/-- Decoded payload carrying the upstream invalid-credential marker. -/
def dataAuth : ApiData := { detail := some "Invalid API key supplied." }

/-! ### String and lexicographic-order lemmas -/

theorem strData_inj {s t : String} (h : s.data = t.data) : s = t := by
  cases s; cases t; exact congrArg String.mk h

theorem listLex_irrefl : ∀ l : List Char, listLex l l = false := by
  intro l
  induction l with
  | nil => rfl
  | cons a as ih => simp [listLex, ih]

theorem listLex_asymm : ∀ a b : List Char, listLex a b = true → listLex b a = true → False
  | [], [], h1, _ => by simp [listLex] at h1
  | [], _ :: _, _, h2 => by simp [listLex] at h2
  | _ :: _, [], h1, _ => by simp [listLex] at h1
  | x :: xs, y :: ys, h1, h2 => by
    by_cases hxy : x = y
    · subst hxy
      simp only [listLex, if_pos rfl] at h1 h2
      exact listLex_asymm xs ys h1 h2
    · simp only [listLex, if_neg hxy, if_neg (Ne.symm hxy), decide_eq_true_eq] at h1 h2
      exact absurd h2 (lt_asymm h1)

theorem listLex_trans : ∀ a b c : List Char,
    listLex a b = true → listLex b c = true → listLex a c = true
  | [], [], _, h1, _ => by simp [listLex] at h1
  | [], _ :: _, [], _, h2 => by simp [listLex] at h2
  | [], _ :: _, _ :: _, _, _ => by simp [listLex]
  | _ :: _, [], _, h1, _ => by simp [listLex] at h1
  | _ :: _, _ :: _, [], _, h2 => by simp [listLex] at h2
  | x :: xs, y :: ys, z :: zs, h1, h2 => by
    by_cases hxy : x = y
    · subst hxy
      by_cases hyz : x = z
      · subst hyz
        simp only [listLex, if_pos rfl] at h1 h2 ⊢
        exact listLex_trans xs ys zs h1 h2
      · simp only [listLex, if_pos rfl] at h1
        simp only [listLex, if_neg hyz] at h2 ⊢
        exact h2
    · by_cases hyz : y = z
      · subst hyz
        simp only [listLex, if_neg hxy] at h1 ⊢
        exact h1
      · simp only [listLex, if_neg hxy, if_neg hyz, decide_eq_true_eq] at h1 h2
        have hxz : x < z := lt_trans h1 h2
        simp only [listLex, if_neg (ne_of_lt hxz), decide_eq_true_eq]
        exact hxz

theorem listLex_total : ∀ a b : List Char, a ≠ b → listLex a b = true ∨ listLex b a = true
  | [], [], h => absurd rfl h
  | [], _ :: _, _ => Or.inl (by simp [listLex])
  | _ :: _, [], _ => Or.inr (by simp [listLex])
  | x :: xs, y :: ys, h => by
    by_cases hxy : x = y
    · subst hxy
      have hne : xs ≠ ys := fun he => h (by rw [he])
      rcases listLex_total xs ys hne with h1 | h1
      · exact Or.inl (by simp [listLex, h1])
      · exact Or.inr (by simp [listLex, h1])
    · rcases lt_or_gt_of_ne hxy with hlt | hlt
      · refine Or.inl ?_
        simp [listLex, if_neg hxy, decide_eq_true_eq]
        exact hlt
      · refine Or.inr ?_
        simp [listLex, if_neg (Ne.symm hxy), decide_eq_true_eq]
        exact hlt

theorem strCmp_self (s : String) : strCmp s s = 0 := by simp [strCmp]

theorem strCmp_neg_iff {s t : String} : strCmp s t < 0 ↔ s ≠ t ∧ strLt s t = true := by
  unfold strCmp
  by_cases h : s = t
  · simp [h]
  · by_cases h2 : strLt s t = true
    · simp [h, h2]
    · simp [h, h2]

theorem strCmp_lt_asymm {s t : String} (h : strCmp s t < 0) : ¬ strCmp t s < 0 := by
  rw [strCmp_neg_iff] at h ⊢
  rintro ⟨-, h2⟩
  exact listLex_asymm _ _ h.2 h2

theorem strCmp_lt_trans {s t u : String} (h1 : strCmp s t < 0) (h2 : strCmp t u < 0) :
    strCmp s u < 0 := by
  rw [strCmp_neg_iff] at h1 h2 ⊢
  refine ⟨?_, listLex_trans _ _ _ h1.2 h2.2⟩
  rintro rfl
  exact listLex_asymm _ _ h1.2 h2.2

theorem strCmp_T1 {s t u : String} (h1 : strCmp s t < 0) (h2 : ¬ strCmp u t < 0) :
    strCmp s u < 0 := by
  by_cases hut : u = t
  · subst hut; exact h1
  · rcases listLex_total u.data t.data (fun he => hut (strData_inj he)) with h3 | h3
    · exact absurd (strCmp_neg_iff.mpr ⟨hut, h3⟩) h2
    · rw [strCmp_neg_iff] at h1 ⊢
      refine ⟨?_, listLex_trans _ _ _ h1.2 h3⟩
      rintro rfl
      exact listLex_asymm _ _ h1.2 h3

theorem strCmp_T1r {s t u : String} (h1 : strCmp t s < 0) (h2 : ¬ strCmp t u < 0) :
    strCmp u s < 0 := by
  by_cases hut : t = u
  · subst hut; exact h1
  · rcases listLex_total t.data u.data (fun he => hut (strData_inj he)) with h3 | h3
    · exact absurd (strCmp_neg_iff.mpr ⟨hut, h3⟩) h2
    · rw [strCmp_neg_iff] at h1 ⊢
      refine ⟨?_, listLex_trans _ _ _ h3 h1.2⟩
      rintro rfl
      exact listLex_asymm _ _ h3 h1.2

theorem containsSub_nil : ∀ l : List Char, containsSub [] l = true
  | [] => rfl
  | _ :: _ => by simp [containsSub, List.isPrefixOf]

theorem strIncludes_empty (s : String) : strIncludes s "" = true := by
  unfold strIncludes
  rw [show ("" : String).data = [] from rfl]
  exact containsSub_nil s.data

theorem lowerStr_empty : lowerStr "" = "" := rfl

/-! ### Membership through the sort -/

theorem mem_insertCmp {cmp : Game → Game → Int} {x a : Game} :
    ∀ l : List Game, a ∈ insertCmp cmp x l ↔ a = x ∨ a ∈ l
  | [] => by simp [insertCmp]
  | b :: l => by
    unfold insertCmp
    by_cases h : cmp x b < 0
    · rw [if_pos h]
      simp only [List.mem_cons]
    · rw [if_neg h]
      simp only [List.mem_cons, mem_insertCmp l]
      tauto

theorem mem_sortCmp_aux {cmp : Game → Game → Int} {a : Game} :
    ∀ (l acc : List Game),
      a ∈ l.foldl (fun acc x => insertCmp cmp x acc) acc ↔ a ∈ acc ∨ a ∈ l
  | [], acc => by simp
  | x :: l, acc => by
    simp only [List.foldl_cons]
    rw [mem_sortCmp_aux l (insertCmp cmp x acc)]
    simp only [mem_insertCmp, List.mem_cons]
    tauto

theorem mem_sortCmp {cmp : Game → Game → Int} {a : Game} (l : List Game) :
    a ∈ sortCmp cmp l ↔ a ∈ l := by
  unfold sortCmp
  rw [mem_sortCmp_aux l []]
  simp

theorem mem_sortGames {a : Game} (so : String) (l : List Game) :
    a ∈ sortGames so l ↔ a ∈ l := by
  unfold sortGames
  split <;> simp [mem_sortCmp]

/-! ### Stability of the insertion model -/

theorem insertCmp_pairwise {cmp : Game → Game → Int}
    (hA : ∀ a b, cmp a b < 0 → ¬ cmp b a < 0)
    (hT2 : ∀ a b c, cmp a b < 0 → cmp b c < 0 → cmp a c < 0)
    (x : Game) :
    ∀ l : List Game, l.Pairwise (fun a b => ¬ cmp b a < 0) →
      (insertCmp cmp x l).Pairwise (fun a b => ¬ cmp b a < 0)
  | [], _ => by simp [insertCmp]
  | y :: l, hp => by
    unfold insertCmp
    by_cases h : cmp x y < 0
    · rw [if_pos h]
      refine List.Pairwise.cons ?_ hp
      intro z hz
      rcases List.mem_cons.mp hz with rfl | hzl
      · exact hA x z h
      · intro hzx
        exact (List.pairwise_cons.mp hp).1 z hzl (hT2 z x y hzx h)
    · rw [if_neg h]
      have hp2 := List.pairwise_cons.mp hp
      refine List.Pairwise.cons ?_ (insertCmp_pairwise hA hT2 x l hp2.2)
      intro z hz
      rcases (mem_insertCmp l).mp hz with rfl | hzl
      · exact h
      · exact hp2.1 z hzl

theorem filter_insertCmp_of_neg {cmp : Game → Game → Int} {p : Game → Bool} {x : Game}
    (hp : p x = false) :
    ∀ l : List Game, (insertCmp cmp x l).filter p = l.filter p
  | [] => by simp [insertCmp, hp]
  | y :: l => by
    unfold insertCmp
    by_cases h : cmp x y < 0
    · rw [if_pos h]
      simp [List.filter_cons, hp]
    · rw [if_neg h]
      by_cases hy : p y = true <;>
        simp [List.filter_cons, hy, @filter_insertCmp_of_neg cmp p x hp l]

theorem filter_insertCmp_of_pos {cmp : Game → Game → Int} {p : Game → Bool} {x : Game}
    (hp : p x = true)
    (hK : ∀ y, p y = true → ¬ cmp x y < 0)
    (hT1 : ∀ a b c, cmp a b < 0 → ¬ cmp c b < 0 → cmp a c < 0) :
    ∀ l : List Game, l.Pairwise (fun a b => ¬ cmp b a < 0) →
      (insertCmp cmp x l).filter p = l.filter p ++ [x]
  | [], _ => by simp [insertCmp, hp]
  | y :: l, hl => by
    unfold insertCmp
    by_cases h : cmp x y < 0
    · rw [if_pos h]
      have hnil : (y :: l).filter p = [] := by
        rw [List.filter_eq_nil_iff]
        intro z hz hpz
        rcases List.mem_cons.mp hz with rfl | hzl
        · exact hK z hpz h
        · exact hK z hpz (hT1 x y z h ((List.pairwise_cons.mp hl).1 z hzl))
      simp [List.filter_cons, hp, hnil]
    · rw [if_neg h]
      have ih := filter_insertCmp_of_pos hp hK hT1 l (List.pairwise_cons.mp hl).2
      by_cases hy : p y = true <;> simp [List.filter_cons, hy, ih]

theorem sortCmp_filter_aux {cmp : Game → Game → Int} {p : Game → Bool}
    (hA : ∀ a b, cmp a b < 0 → ¬ cmp b a < 0)
    (hT1 : ∀ a b c, cmp a b < 0 → ¬ cmp c b < 0 → cmp a c < 0)
    (hT2 : ∀ a b c, cmp a b < 0 → cmp b c < 0 → cmp a c < 0)
    (hK : ∀ a b, p a = true → p b = true → ¬ cmp a b < 0) :
    ∀ (l acc : List Game), acc.Pairwise (fun a b => ¬ cmp b a < 0) →
      (l.foldl (fun acc x => insertCmp cmp x acc) acc).filter p =
        acc.filter p ++ l.filter p
  | [], acc, _ => by simp
  | x :: l, acc, hacc => by
    simp only [List.foldl_cons]
    rw [sortCmp_filter_aux hA hT1 hT2 hK l (insertCmp cmp x acc)
      (insertCmp_pairwise hA hT2 x acc hacc)]
    by_cases hx : p x = true
    · rw [filter_insertCmp_of_pos hx (fun y hy => hK x y hx hy) hT1 acc hacc]
      simp [List.filter_cons, hx]
    · have hx0 : p x = false := by simpa using hx
      rw [filter_insertCmp_of_neg hx0 acc]
      simp [List.filter_cons, hx0]

theorem sortCmp_filter {cmp : Game → Game → Int} {p : Game → Bool}
    (hA : ∀ a b, cmp a b < 0 → ¬ cmp b a < 0)
    (hT1 : ∀ a b c, cmp a b < 0 → ¬ cmp c b < 0 → cmp a c < 0)
    (hT2 : ∀ a b c, cmp a b < 0 → cmp b c < 0 → cmp a c < 0)
    (hK : ∀ a b, p a = true → p b = true → ¬ cmp a b < 0)
    (l : List Game) :
    (sortCmp cmp l).filter p = l.filter p := by
  unfold sortCmp
  rw [sortCmp_filter_aux hA hT1 hT2 hK l [] (by simp)]
  simp

/-! ### Filter predicates against the specification wording -/

theorem matchesSearch_iff (term : String) (g : Game) :
    matchesSearch term g = true ↔ SpecTextMatch term g := by
  unfold matchesSearch SpecTextMatch
  simp only [Bool.or_eq_true, List.any_eq_true]
  constructor
  · rintro (h | ⟨x, hx, hsub⟩)
    · exact Or.inr (Or.inl h)
    · exact Or.inr (Or.inr ⟨x, hx, hsub⟩)
  · rintro (rfl | h | ⟨x, hx, hsub⟩)
    · left
      rw [lowerStr_empty]
      exact strIncludes_empty _
    · exact Or.inl h
    · exact Or.inr ⟨x, hx, hsub⟩

theorem matchesPlatforms_iff (sel : List String) (g : Game) :
    matchesPlatforms sel g = true ↔ SpecPlatformMatch sel g := by
  have hc : ∀ (l : List String) (a : String), l.contains a = true ↔ a ∈ l :=
    fun l a => by simp
  unfold matchesPlatforms SpecPlatformMatch
  simp only [Bool.or_eq_true, List.isEmpty_iff, List.any_eq_true]
  constructor
  · rintro (h | ⟨p, hp, hc2⟩)
    · exact Or.inl h
    · exact Or.inr ⟨p, (hc _ _).mp hc2, hp⟩
  · rintro (h | ⟨p, hp, hsel⟩)
    · exact Or.inl h
    · exact Or.inr ⟨p, hsel, (hc _ _).mpr hp⟩

theorem matchesGenres_iff (sel : List String) (g : Game) :
    matchesGenres sel g = true ↔ SpecGenreMatch sel g := by
  have hc : ∀ (l : List String) (a : String), l.contains a = true ↔ a ∈ l :=
    fun l a => by simp
  unfold matchesGenres SpecGenreMatch
  simp only [Bool.or_eq_true, List.isEmpty_iff, List.any_eq_true]
  constructor
  · rintro (h | ⟨x, hx, hc2⟩)
    · exact Or.inl h
    · exact Or.inr ⟨x, (hc _ _).mp hc2, hx⟩
  · rintro (h | ⟨x, hx, hsel⟩)
    · exact Or.inl h
    · exact Or.inr ⟨x, hsel, (hc _ _).mpr hx⟩

theorem matchesStatus_iff (sel : List String) (g : Game) :
    matchesStatus sel g = true ↔ SpecStatusMatch sel g := by
  unfold matchesStatus SpecStatusMatch
  simp [Bool.or_eq_true, List.isEmpty_iff]

/-! ### Behavior of the two string-keyed switches on an unknown mode -/

theorem sortGames_default {so : String} (h1 : so ≠ "title-az") (h2 : so ≠ "title-za")
    (h3 : so ≠ "date-oldest") (h4 : so ≠ "date-newest") (h5 : so ≠ "status")
    (h6 : so ≠ "rating-high") (h7 : so ≠ "rating-low") (l : List Game) :
    sortGames so l = l := by
  unfold sortGames
  split <;> simp_all

theorem sameKey_default {so : String} (h1 : so ≠ "title-az") (h2 : so ≠ "title-za")
    (h3 : so ≠ "date-oldest") (h4 : so ≠ "date-newest") (h5 : so ≠ "status")
    (h6 : so ≠ "rating-high") (h7 : so ≠ "rating-low") (a b : Game) :
    sameKey so a b = true := by
  unfold sameKey
  split <;> simp_all

/-! ### Literal-branch reductions of the two switches -/

theorem sortGames_title_az (l : List Game) :
    sortGames "title-az" l = sortCmp (fun a b => strCmp a.title b.title) l := rfl

theorem sortGames_title_za (l : List Game) :
    sortGames "title-za" l = sortCmp (fun a b => strCmp b.title a.title) l := rfl

theorem sortGames_status (l : List Game) :
    sortGames "status" l = sortCmp (fun a b => strCmp a.status b.status) l := rfl

theorem sortGames_rating_high (l : List Game) :
    sortGames "rating-high" l =
      sortCmp (fun a b => b.rating.getD 0 - a.rating.getD 0) l := rfl

theorem sortGames_rating_low (l : List Game) :
    sortGames "rating-low" l =
      sortCmp (fun a b => a.rating.getD 0 - b.rating.getD 0) l := rfl

theorem sameKey_title_az (a b : Game) :
    sameKey "title-az" a b = (a.title == b.title) := rfl

theorem sameKey_title_za (a b : Game) :
    sameKey "title-za" a b = (a.title == b.title) := rfl

theorem sameKey_status (a b : Game) :
    sameKey "status" a b = (a.status == b.status) := rfl

theorem sameKey_rating_high (a b : Game) :
    sameKey "rating-high" a b = (a.rating.getD 0 == b.rating.getD 0) := rfl

theorem sameKey_rating_low (a b : Game) :
    sameKey "rating-low" a b = (a.rating.getD 0 == b.rating.getD 0) := rfl

/-! ### Claims -/

/-- C10: the filtering stage of the view preserves catalog order: the
filtered (pre-sort) list is a subsequence of the catalog, so any two
games that both pass the filters keep their relative catalog order, and
no record occurs more often than it does in the catalog. -/
theorem C10_filter_subsequence (args : FilterArgs) (games : List Game) :
    List.Sublist (applyFilters args games) games ∧
      ∀ g : Game, (applyFilters args games).count g ≤ games.count g :=
  ⟨List.filter_sublist games, fun g => (List.filter_sublist games).count_le g⟩

/-- C9: updateGame is frame-preserving: the collection keeps its length
and positions, every record whose id differs from the target keeps its
exact value at its position, and when no record carries the target id
the whole collection is unchanged. -/
theorem C9_updateGame_frame (gameId : String) (u : GameUpdate) (games : List Game) :
    (updateGame gameId u games).length = games.length ∧
    (∀ (i : Nat) (g : Game), games[i]? = some g → g.id ≠ gameId →
      (updateGame gameId u games)[i]? = some g) ∧
    ((∀ g ∈ games, g.id ≠ gameId) → updateGame gameId u games = games) := by
  refine ⟨by simp [updateGame], ?_, ?_⟩
  · intro i g hg hne
    unfold updateGame
    rw [List.getElem?_map, hg]
    simp [if_neg hne]
  · intro hall
    unfold updateGame
    have hgen : ∀ l : List Game, (∀ g ∈ l, g.id ≠ gameId) →
        (l.map fun g => if g.id = gameId then applyUpdate u g else g) = l := by
      intro l
      induction l with
      | nil => intro _; rfl
      | cons a t ih =>
        intro h
        simp only [List.map_cons]
        rw [if_neg (h a (by simp)), ih (fun g hg => h g (by simp [hg]))]
    exact hgen games hall

/-- Witness instantiating C9 at a concrete collection and a target id
that no record carries. -/
theorem C9_witness :
    ([gWant] : List Game)[0]? = some gWant ∧ gWant.id ≠ "9" ∧
      (updateGame "9" (cardStatusUpdate "playing") [gWant])[0]? = some gWant := by
  refine ⟨rfl, by decide, ?_⟩
  exact (C9_updateGame_frame "9" (cardStatusUpdate "playing") [gWant]).2.1 0 gWant rfl
    (by decide)

/-- C7: loadGames is total (the embedding is a total function, modelling
the catch around the storage read): an absent blob yields the empty
collection, a blob on which JSON.parse throws yields the empty
collection, and a blob that parses yields exactly the parsed list. The
parse argument models JSON.parse, which always throws on the empty
string (hypothesis hparse). -/
theorem C7_loadGames_spec (parse : String → Option (List Game))
    (hparse : parse "" = none) (blob : Option String) :
    (blob = none → loadGames parse blob = []) ∧
    (∀ s, blob = some s → parse s = none → loadGames parse blob = []) ∧
    (∀ s l, blob = some s → parse s = some l → loadGames parse blob = l) := by
  refine ⟨?_, ?_, ?_⟩
  · rintro rfl; rfl
  · rintro s rfl hp
    unfold loadGames
    by_cases hs : s = "" <;> simp [hs, hp]
  · rintro s l rfl hp
    unfold loadGames
    by_cases hs : s = ""
    · subst hs; rw [hparse] at hp; cases hp
    · simp [hs, hp]

/-- Witness instantiating C7 on an absent blob, a malformed blob and a
well-formed blob. -/
theorem C7_witness :
    parseW "" = none ∧ loadGames parseW none = [] ∧
      loadGames parseW (some "junk") = [] ∧
      loadGames parseW (some "GOOD") = [gPlaying] := by
  have h0 : parseW "" = none := by decide
  exact ⟨h0, (C7_loadGames_spec parseW h0 none).1 rfl,
    (C7_loadGames_spec parseW h0 (some "junk")).2.1 "junk" rfl (by decide),
    (C7_loadGames_spec parseW h0 (some "GOOD")).2.2 "GOOD" [gPlaying] rfl (by decide)⟩

/-- C6: a submission whose draft title is blank (empty or whitespace
only) is rejected by handleSubmit before reaching the store: the
collection is unchanged, no record is appended, and since persistence
mirrors the collection nothing new is persisted. The rejected branch is
the ValidationError of the specification's error taxonomy. -/
theorem C6_blank_title_rejected (fd : FormData) (nowMs : Nat) (today : String)
    (games : List Game) (h : trimStr fd.title = "") :
    submitGame fd nowMs today games = games ∧
      (submitGame fd nowMs today games).length = games.length := by
  have he : submitGame fd nowMs today games = games := by
    unfold submitGame
    rw [h]
    simp
  exact ⟨he, by rw [he]⟩

/-- Witness instantiating C6 on a whitespace-only title. -/
theorem C6_witness :
    trimStr fdBlank.title = "" ∧ submitGame fdBlank 7 "2024-03-03" [gWant] = [gWant] :=
  ⟨by decide, (C6_blank_title_rejected fdBlank 7 "2024-03-03" [gWant] (by decide)).1⟩

/-- C3: a game is in the view exactly when it is in the catalog and
satisfies the conjunction of the four specification predicates: the
text match (empty search text, or case-insensitive substring of title or
of some genre entry), the platform filter, the genre filter and the
status filter, each with empty-set-matches-everything semantics. The
sort stage, a permutation of the filtered list, does not change
membership. -/
theorem C3_view_membership (args : FilterArgs) (sortOption : String)
    (games : List Game) (g : Game) :
    g ∈ filteredGames args sortOption games ↔
      g ∈ games ∧ SpecTextMatch args.searchTerm g ∧
        SpecPlatformMatch args.selectedPlatforms g ∧
        SpecGenreMatch args.selectedGenres g ∧
        SpecStatusMatch args.selectedStatus g := by
  unfold filteredGames
  rw [mem_sortGames]
  unfold applyFilters
  rw [List.mem_filter]
  unfold gameMatches
  simp only [Bool.and_eq_true]
  rw [matchesSearch_iff, matchesPlatforms_iff, matchesGenres_iff, matchesStatus_iff]
  tauto

/-- C5: pickRandomGame only ever returns a record of the given view
whose status is want-to-play or playing, never completed or dropped; it
returns none exactly when the view holds no eligible record; and on a
random index i below the eligible count it returns the i-th eligible
record, so a uniform index yields a uniform draw over the eligible
subset. -/
theorem C5_pickRandom_spec (view : List Game) (i : Nat) :
    (∀ g, pickRandomGame view i = some g →
        g ∈ view ∧ (g.status = "want-to-play" ∨ g.status = "playing") ∧
          g.status ≠ "completed" ∧ g.status ≠ "dropped") ∧
    (pickRandomGame view i = none ↔ view.filter eligibleForRandom = []) ∧
    (∀ h : i < (view.filter eligibleForRandom).length,
        pickRandomGame view i = some ((view.filter eligibleForRandom).get ⟨i, h⟩)) := by
  refine ⟨?_, ?_, ?_⟩
  · intro g hg
    unfold pickRandomGame at hg
    by_cases h0 : 0 < (view.filter eligibleForRandom).length
    · rw [dif_pos h0] at hg
      have hg2 : g ∈ view.filter eligibleForRandom := by
        cases hg
        exact List.get_mem _ _ _
      have hm := List.mem_filter.mp hg2
      have hst : g.status = "want-to-play" ∨ g.status = "playing" := by
        have hel := hm.2
        unfold eligibleForRandom at hel
        simpa [Bool.or_eq_true, beq_iff_eq] using hel
      refine ⟨hm.1, hst, ?_, ?_⟩
      · rcases hst with h | h <;> simp [h]
      · rcases hst with h | h <;> simp [h]
    · rw [dif_neg h0] at hg
      cases hg
  · unfold pickRandomGame
    by_cases h0 : 0 < (view.filter eligibleForRandom).length
    · rw [dif_pos h0]
      constructor
      · intro h; cases h
      · intro h
        rw [h] at h0
        simp at h0
    · rw [dif_neg h0]
      simp [List.length_eq_zero.mp (Nat.eq_zero_of_not_pos h0)]
  · intro h
    unfold pickRandomGame
    have h0 : 0 < (view.filter eligibleForRandom).length :=
      Nat.lt_of_le_of_lt (Nat.zero_le _) h
    rw [dif_pos h0]
    have hfin : (⟨i % (view.filter eligibleForRandom).length, Nat.mod_lt i h0⟩ :
        Fin (view.filter eligibleForRandom).length) = ⟨i, h⟩ :=
      Fin.ext (Nat.mod_eq_of_lt h)
    rw [hfin]

/-- Witness instantiating C5: from a view holding one eligible and one
dropped record the pick at index 0 returns the eligible one, and from a
view holding only a completed record it returns none. -/
theorem C5_witness :
    (0 : Nat) < ([gWant, gDropped].filter eligibleForRandom).length ∧
      pickRandomGame [gWant, gDropped] 0 = some gWant ∧
      pickRandomGame [gCompletedOld] 0 = none := by
  refine ⟨by decide, ?_, ?_⟩
  · have h2 := (C5_pickRandom_spec [gWant, gDropped] 0).2.2 (by decide)
    simpa using h2
  · exact (C5_pickRandom_spec [gCompletedOld] 0).2.1.mpr (by rfl)

/-- C8: once a non-blank query and credential cause a network exchange,
the search fails with the auth error exactly when the decoded remote
payload carries a detail field containing the substring
"Invalid API key"; it fails with the network error whenever the
transport status is outside the 2xx range; and the two failures are
distinct constructors, so the caller can tell them apart. -/
theorem C8_search_error_taxonomy (query apiKey : String) (st : Nat)
    (decoded : Option ApiData) (hq : trimStr query ≠ "") (hk : trimStr apiKey ≠ "") :
    (searchGames query apiKey st decoded = SearchOutcome.authError ↔
      responseOk st = true ∧ ∃ data d, decoded = some data ∧ data.detail = some d ∧
        strIncludes d "Invalid API key" = true) ∧
    (responseOk st = false →
      searchGames query apiKey st decoded = SearchOutcome.networkError st) ∧
    (∀ s, SearchOutcome.authError ≠ SearchOutcome.networkError s) := by
  have hqk : ¬ (trimStr query = "" ∨ trimStr apiKey = "") := by
    rintro (h | h)
    · exact hq h
    · exact hk h
  refine ⟨?_, ?_, fun s h => by cases h⟩
  · by_cases hok : responseOk st = true
    · cases decoded with
      | none =>
        have hval : searchGames query apiKey st none = SearchOutcome.decodeError := by
          simp [searchGames, hqk, hok]
        rw [hval]
        constructor
        · intro h; cases h
        · rintro ⟨-, data, d, hed, -⟩
          cases hed
      | some data =>
        by_cases hd : hasAuthFailureDetail data = true
        · have hval : searchGames query apiKey st (some data) = SearchOutcome.authError := by
            simp [searchGames, hqk, hok, hd]
          rw [hval]
          constructor
          · rintro -
            refine ⟨hok, ?_⟩
            unfold hasAuthFailureDetail at hd
            cases hdet : data.detail with
            | none => rw [hdet] at hd; cases hd
            | some d =>
              rw [hdet] at hd
              exact ⟨data, d, rfl, hdet, hd⟩
          · rintro -
            rfl
        · have hval : searchGames query apiKey st (some data) =
              SearchOutcome.results (data.results.getD []) := by
            simp [searchGames, hqk, hok, hd]
          rw [hval]
          constructor
          · intro h; cases h
          · rintro ⟨-, data2, d, hed, hdet, hinc⟩
            cases hed
            exact absurd (show hasAuthFailureDetail data = true by
              unfold hasAuthFailureDetail; rw [hdet]; exact hinc) hd
    · have hok0 : responseOk st = false := by simpa using hok
      have hval : searchGames query apiKey st decoded = SearchOutcome.networkError st := by
        simp [searchGames, hqk, hok0]
      rw [hval]
      constructor
      · intro h; cases h
      · rintro ⟨h, -⟩
        rw [hok0] at h
        cases h
  · intro hok0
    have hval : searchGames query apiKey st decoded = SearchOutcome.networkError st := by
      simp [searchGames, hqk, hok0]
    rw [hval]

/-- Witness instantiating C8: a 200 response whose decoded payload
carries the invalid-credential marker yields the auth error, a 500
response yields the network error carrying that status. -/
theorem C8_witness :
    trimStr "zelda" ≠ "" ∧ trimStr "key1" ≠ "" ∧
      searchGames "zelda" "key1" 200 (some dataAuth) = SearchOutcome.authError ∧
      searchGames "zelda" "key1" 500 (some dataAuth) = SearchOutcome.networkError 500 := by
  refine ⟨by decide, by decide, ?_, ?_⟩
  · exact (C8_search_error_taxonomy "zelda" "key1" 200 (some dataAuth) (by decide)
      (by decide)).1.mpr
      ⟨by decide, dataAuth, "Invalid API key supplied.", rfl, rfl, by decide⟩
  · exact (C8_search_error_taxonomy "zelda" "key1" 500 (some dataAuth) (by decide)
      (by decide)).2.1 (by decide)

/-- C1 (amended): the transition rule holds for status changes performed
through the detail modal's dedicated handler: when the new status is
completed and the previous status was not, the merged record carries
dateCompleted equal to the handler's current date; when the new status
is anything other than completed, the merged record's dateCompleted is
absent regardless of its previous value. -/
theorem C1_handleStatusChange_rule (g : Game) (newStatus today : String) :
    (newStatus = "completed" → g.status ≠ "completed" →
      (applyUpdate (handleStatusChangeUpdates g newStatus today) g).dateCompleted =
          some today ∧
        (applyUpdate (handleStatusChangeUpdates g newStatus today) g).status =
          "completed") ∧
    (newStatus ≠ "completed" →
      (applyUpdate (handleStatusChangeUpdates g newStatus today) g).dateCompleted = none ∧
        (applyUpdate (handleStatusChangeUpdates g newStatus today) g).status = newStatus) := by
  constructor
  · rintro rfl hprev
    unfold handleStatusChangeUpdates
    rw [if_pos ⟨rfl, hprev⟩]
    exact ⟨rfl, rfl⟩
  · intro hne
    unfold handleStatusChangeUpdates
    rw [if_neg (fun hc => hne hc.1), if_pos hne]
    exact ⟨rfl, rfl⟩

/-- Witness instantiating C1 on both transition directions: playing to
completed stamps the date, completed to playing clears it. -/
theorem C1_witness :
    gPlaying.status ≠ "completed" ∧
      (applyUpdate (handleStatusChangeUpdates gPlaying "completed" "2024-04-04")
          gPlaying).dateCompleted = some "2024-04-04" ∧
      ("playing" : String) ≠ "completed" ∧
      (applyUpdate (handleStatusChangeUpdates gCompletedOld "playing" "2024-04-04")
          gCompletedOld).dateCompleted = none := by
  refine ⟨by decide, ?_, by decide, ?_⟩
  · exact ((C1_handleStatusChange_rule gPlaying "completed" "2024-04-04").1 rfl
      (by decide)).1
  · exact ((C1_handleStatusChange_rule gCompletedOld "playing" "2024-04-04").2
      (by decide)).1

/-- C1 counterexample: the game card's status dropdown (App.tsx line
390) is also a status-change operation, but it routes the bare status
through the generic merge. Changing a completed record with a stored
dateCompleted to playing through that path leaves dateCompleted present,
while the claim requires it cleared for every status-change operation. -/
theorem C1_counterexample :
    gCompletedOld.status = "completed" ∧
      gCompletedOld.dateCompleted = some "2024-02-02" ∧
      (updateGame "1" (cardStatusUpdate "playing") [gCompletedOld]).map
          (fun g => (g.status, g.dateCompleted)) =
        [("playing", some "2024-02-02")] := by
  decide

/-- C2 (amended): ids stay pairwise distinct provided every add observes
a Date.now() value whose string form is not already an id in the
collection at that moment (freshSeq); the code itself does not enforce
this, as two adds inside one millisecond reuse the same id. -/
theorem C2_fresh_ids (games : List Game) (ops : List (GameDraft × Nat × String))
    (h0 : (games.map Game.id).Nodup) (hf : freshSeq games ops = true) :
    ((runAdds games ops).map Game.id).Nodup := by
  induction ops generalizing games with
  | nil => exact h0
  | cons op rest ih =>
    obtain ⟨d, n, t⟩ := op
    unfold freshSeq at hf
    rw [Bool.and_eq_true] at hf
    have hcon : ((games.map Game.id).contains (toString n)) = false := by
      simpa using hf.1
    have hnotin : toString n ∉ games.map Game.id := by
      intro hmem
      have hc2 : ((games.map Game.id).contains (toString n)) = true := by
        have hiff : ((games.map Game.id).contains (toString n)) = true ↔
            toString n ∈ games.map Game.id := by simp
        exact hiff.mpr hmem
      rw [hcon] at hc2
      cases hc2
    unfold runAdds
    apply ih
    · simp only [addGame, List.map_append, List.map_cons, List.map_nil]
      rw [List.nodup_append]
      refine ⟨h0, List.nodup_singleton _, ?_⟩
      intro a ha hb
      have : a = toString n := by simpa [gameOfDraft] using hb
      rw [this] at ha
      exact hnotin ha
    · exact hf.2

/-- Witness instantiating C2 on an initially empty collection and two
adds at distinct milliseconds. -/
theorem C2_witness :
    (([] : List Game).map Game.id).Nodup ∧ freshSeq [] opsW = true ∧
      ((runAdds [] opsW).map Game.id).Nodup :=
  ⟨by decide, by decide, C2_fresh_ids [] opsW (by decide) (by decide)⟩

/-- C2 counterexample: two adds that observe the same Date.now() value
(possible, since the clock has millisecond granularity) produce two
records with the same id, so an add does not always assign an id
distinct from every id already in the collection. -/
theorem C2_counterexample :
    (runAdds [] [(dSample, 5, "2024-01-01"), (dSample, 5, "2024-01-01")]).map Game.id
        = ["5", "5"] ∧
      ¬ ((runAdds [] [(dSample, 5, "2024-01-01"), (dSample, 5, "2024-01-01")]).map
          Game.id).Nodup := by
  decide

/-- C4 (amended): sorting keeps games with equal sort keys in their
filtered relative order under the title, status and rating modes, whose
comparators return 0 on equal keys. The claim excludes date-oldest and
date-newest: those comparators never return 0, so per ECMAScript the
tie order is implementation-defined, and under the engine's insertion
placement ties are reversed (see the counterexample). Stability is
stated as usual: the subsequence of games sharing any one key is the
same before and after sorting. -/
theorem C4_sort_stable (args : FilterArgs) (so : String) (games : List Game) (g0 : Game)
    (hd1 : so ≠ "date-oldest") (hd2 : so ≠ "date-newest") :
    (filteredGames args so games).filter (fun x => sameKey so x g0) =
      (applyFilters args games).filter (fun x => sameKey so x g0) := by
  unfold filteredGames
  by_cases h1 : so = "title-az"
  · subst h1
    rw [sortGames_title_az]
    refine @sortCmp_filter (fun a b => strCmp a.title b.title)
      (fun x => sameKey "title-az" x g0) ?_ ?_ ?_ ?_ _
    · exact fun a b h => strCmp_lt_asymm h
    · exact fun a b c hab hcb => strCmp_T1 hab hcb
    · exact fun a b c hab hbc => strCmp_lt_trans hab hbc
    · intro a b ha hb
      have ha2 : a.title = g0.title :=
        beq_iff_eq.mp (show (a.title == g0.title) = true from ha)
      have hb2 : b.title = g0.title :=
        beq_iff_eq.mp (show (b.title == g0.title) = true from hb)
      show ¬ strCmp a.title b.title < 0
      rw [ha2, hb2, strCmp_self]
      simp
  by_cases h2 : so = "title-za"
  · subst h2
    rw [sortGames_title_za]
    refine @sortCmp_filter (fun a b => strCmp b.title a.title)
      (fun x => sameKey "title-za" x g0) ?_ ?_ ?_ ?_ _
    · exact fun a b h => strCmp_lt_asymm h
    · exact fun a b c hab hcb => strCmp_T1r hab hcb
    · exact fun a b c hab hbc => strCmp_lt_trans hbc hab
    · intro a b ha hb
      have ha2 : a.title = g0.title :=
        beq_iff_eq.mp (show (a.title == g0.title) = true from ha)
      have hb2 : b.title = g0.title :=
        beq_iff_eq.mp (show (b.title == g0.title) = true from hb)
      show ¬ strCmp b.title a.title < 0
      rw [ha2, hb2, strCmp_self]
      simp
  by_cases h5 : so = "status"
  · subst h5
    rw [sortGames_status]
    refine @sortCmp_filter (fun a b => strCmp a.status b.status)
      (fun x => sameKey "status" x g0) ?_ ?_ ?_ ?_ _
    · exact fun a b h => strCmp_lt_asymm h
    · exact fun a b c hab hcb => strCmp_T1 hab hcb
    · exact fun a b c hab hbc => strCmp_lt_trans hab hbc
    · intro a b ha hb
      have ha2 : a.status = g0.status :=
        beq_iff_eq.mp (show (a.status == g0.status) = true from ha)
      have hb2 : b.status = g0.status :=
        beq_iff_eq.mp (show (b.status == g0.status) = true from hb)
      show ¬ strCmp a.status b.status < 0
      rw [ha2, hb2, strCmp_self]
      simp
  by_cases h6 : so = "rating-high"
  · subst h6
    rw [sortGames_rating_high]
    refine @sortCmp_filter (fun a b => b.rating.getD 0 - a.rating.getD 0)
      (fun x => sameKey "rating-high" x g0) ?_ ?_ ?_ ?_ _
    · intro a b h
      have h2 : b.rating.getD 0 - a.rating.getD 0 < 0 := h
      show ¬ a.rating.getD 0 - b.rating.getD 0 < 0
      omega
    · intro a b c hab hcb
      have h2 : b.rating.getD 0 - a.rating.getD 0 < 0 := hab
      have h3 : ¬ b.rating.getD 0 - c.rating.getD 0 < 0 := hcb
      show c.rating.getD 0 - a.rating.getD 0 < 0
      omega
    · intro a b c hab hbc
      have h2 : b.rating.getD 0 - a.rating.getD 0 < 0 := hab
      have h3 : c.rating.getD 0 - b.rating.getD 0 < 0 := hbc
      show c.rating.getD 0 - a.rating.getD 0 < 0
      omega
    · intro a b ha hb
      have ha2 : a.rating.getD 0 = g0.rating.getD 0 :=
        beq_iff_eq.mp (show (a.rating.getD 0 == g0.rating.getD 0) = true from ha)
      have hb2 : b.rating.getD 0 = g0.rating.getD 0 :=
        beq_iff_eq.mp (show (b.rating.getD 0 == g0.rating.getD 0) = true from hb)
      show ¬ b.rating.getD 0 - a.rating.getD 0 < 0
      omega
  by_cases h7 : so = "rating-low"
  · subst h7
    rw [sortGames_rating_low]
    refine @sortCmp_filter (fun a b => a.rating.getD 0 - b.rating.getD 0)
      (fun x => sameKey "rating-low" x g0) ?_ ?_ ?_ ?_ _
    · intro a b h
      have h2 : a.rating.getD 0 - b.rating.getD 0 < 0 := h
      show ¬ b.rating.getD 0 - a.rating.getD 0 < 0
      omega
    · intro a b c hab hcb
      have h2 : a.rating.getD 0 - b.rating.getD 0 < 0 := hab
      have h3 : ¬ c.rating.getD 0 - b.rating.getD 0 < 0 := hcb
      show a.rating.getD 0 - c.rating.getD 0 < 0
      omega
    · intro a b c hab hbc
      have h2 : a.rating.getD 0 - b.rating.getD 0 < 0 := hab
      have h3 : b.rating.getD 0 - c.rating.getD 0 < 0 := hbc
      show a.rating.getD 0 - c.rating.getD 0 < 0
      omega
    · intro a b ha hb
      have ha2 : a.rating.getD 0 = g0.rating.getD 0 :=
        beq_iff_eq.mp (show (a.rating.getD 0 == g0.rating.getD 0) = true from ha)
      have hb2 : b.rating.getD 0 = g0.rating.getD 0 :=
        beq_iff_eq.mp (show (b.rating.getD 0 == g0.rating.getD 0) = true from hb)
      show ¬ a.rating.getD 0 - b.rating.getD 0 < 0
      omega
  rw [sortGames_default h1 h2 hd1 hd2 h5 h6 h7]

/-- Witness instantiating C4 on the title-az mode with a two-record
view. -/
theorem C4_witness :
    ("title-az" : String) ≠ "date-oldest" ∧ ("title-az" : String) ≠ "date-newest" ∧
      (filteredGames emptyFilters "title-az" [gTieA, gTieB]).filter
          (fun x => sameKey "title-az" x gTieA) =
        (applyFilters emptyFilters [gTieA, gTieB]).filter
          (fun x => sameKey "title-az" x gTieA) :=
  ⟨by decide, by decide,
    C4_sort_stable emptyFilters "title-az" [gTieA, gTieB] gTieA (by decide) (by decide)⟩

/-- C4 counterexample: under date-newest two distinct records tied on
dateAdded pass the filters in catalog order yet come out of the view in
the opposite order, because the date comparator returns -1 on ties and
the inserted element moves in front of the element it ties with. So
sorting is not stable under every sort mode. -/
theorem C4_counterexample :
    gTieA.dateAdded = gTieB.dateAdded ∧ gTieA ≠ gTieB ∧
      applyFilters emptyFilters [gTieA, gTieB] = [gTieA, gTieB] ∧
      filteredGames emptyFilters "date-newest" [gTieA, gTieB] = [gTieB, gTieA] := by
  decide
